import Mathlib

/-!
Shallow embedding of the git-status repository-state collector
(src/error.rs, src/git_utils.rs, src/main.rs) in Lean 4.

External calls into the git2 / libgit2 library and the filesystem are
modelled by explicit environment records (`Repo`, `FS`, `Git2World`)
whose fields record the outcome each call would return during one
invocation; the control flow of the Rust functions themselves is
translated statement by statement.
-/

set_option maxRecDepth 2000

namespace GitStatus

/-- Error value of a git2 library call (`git2::Error`); the payload is an
abstract code, since only success or failure matters to the control flow. -/
structure GitError where
  code : Nat
deriving DecidableEq, Repr

/-- Error value of a std io call (`std::io::Error`). -/
structure IoErr where
  code : Nat
deriving DecidableEq, Repr

/-- The crate error type from src/error.rs: `Io`, `Git`, and the
`Message` strings produced inside src/git_utils.rs, one constructor per
distinct message site. -/
inductive Error where
  /-- Wraps `Error::Io`. -/
  | ioFail (e : IoErr)
  /-- Wraps `Error::Git`. -/
  | git (e : GitError)
  /-- message at git_subfolder: the starting path does not exist -/
  | pathNotFound (p : List String)
  /-- message at process_current_dir: no ancestor holds a `.git` entry -/
  | notFoundGitFolder
  /-- message at graph_ahead_behind: reference name or oid absent -/
  | trackingBranchMissing
  /-- message at graph_ahead_behind: upstream name is not UTF-8 -/
  | trackingBranchNonUtf8
  /-- message at graph_ahead_behind: tracking reference has no target -/
  | trackingBranchNoOid
deriving DecidableEq, Repr

/-- A git object id (`git2::Oid`): its textual form is a 40-character
hexadecimal string, which is what `Oid::to_string` produces. -/
def Oid : Type := { s : String // s.length = 40 }

instance : DecidableEq Oid :=
  inferInstanceAs (DecidableEq { s : String // s.length = 40 })

/-- Models `git2::Oid::to_string`. -/
def Oid.toStr (o : Oid) : String := o.val

/-- The named flags of the `git2::Status` bit-set, in declaration order. -/
inductive StatusFlag where
  | current
  | index_new
  | index_modified
  | index_deleted
  | index_renamed
  | index_typechange
  | wt_new
  | wt_modified
  | wt_deleted
  | wt_typechange
  | wt_renamed
  | wt_unreadable
  | ignored
  | conflicted
deriving DecidableEq, Repr

/-- A `git2::Status` bit-set for one path, as the set of named flags it
contains. -/
def Status : Type := StatusFlag → Bool

/-- Bitwise union of two status bit-sets (`git2::Status::union`). -/
def Status.union (a b : Status) : Status := fun f => a f || b f

/-- The empty status bit-set (`git2::Status::empty`). -/
def Status.empty : Status := fun _ => false

/-- Models `git2::StatusShow`. -/
inductive StatusShow where
  | indexAndWorkdir
  | index
deriving DecidableEq, Repr

/-- The fields of `git2::StatusOptions` that file_status sets. -/
structure StatusOptions where
  show_kind : StatusShow
  no_refresh : Bool
  update_index : Bool
  exclude_submodules : Bool
  include_ignored : Bool
  include_unreadable : Bool
  include_untracked : Bool
deriving DecidableEq, Repr

/-- Models `git2::ReferenceType` (the `Some` kinds). -/
inductive ReferenceType where
  | symbolic
  | direct
deriving DecidableEq, Repr

/-- Outcome of following a symbolic reference chain
(`git2::Reference::resolve`): the concrete reference reached, of which
head_info only reads the target. -/
structure ResolvedRef where
  target : Option Oid
deriving DecidableEq

/-- A `git2::Reference` as head_info and graph_ahead_behind observe it.
`resolved` records the outcome of `Reference::resolve().ok_or_log()`:
`none` when following the chain failed (the failure is logged). -/
structure Reference where
  kind : Option ReferenceType
  symbolic_target : Option String
  name : Option String
  target : Option Oid
  resolved : Option ResolvedRef
deriving DecidableEq

/-- A configuration snapshot (`repo.config()?.snapshot()?`).
`get_bool key` is `.ok v` when the key is present and parses as a
boolean, and `.error _` when the key is missing or malformed. -/
structure Config where
  get_bool : String → Except GitError Bool

/-- A `git2::Repository` handle, modelled by the outcomes of the library
calls the collector makes on it during one invocation. -/
structure Repo where
  /-- Outcome of `Repository::head_detached`. -/
  head_detached : Except GitError Bool
  /-- Outcome of `Repository::find_reference`. -/
  find_reference : String → Except GitError Reference
  /-- Outcome of `Repository::branch_upstream_name`, composed with `Buf::as_str`
  (`none` when the buffer is not valid UTF-8) -/
  branch_upstream_name : String → Except GitError (Option String)
  /-- Outcome of `Repository::graph_ahead_behind`. -/
  graph_ahead_behind : Oid → Oid → Except GitError (Nat × Nat)
  /-- Outcome of `repo.config()?.snapshot()?`. -/
  config : Except GitError Config
  /-- Outcome of `Repository::statuses`: the per-path status bit-sets produced for
  a given option set -/
  statuses : StatusOptions → Except GitError (List Status)

/-- The three `git2::Repository::open(path)` calls of one invocation:
inside configuration_overrided, and one per concurrent unit (each unit
opens its own handle).  The unit-side opens are recorded after
`.ok_or_log()`, hence as options. -/
structure Git2World where
  open0 : Except GitError Repo
  openA : Option Repo
  openB : Option Repo

/-- A filesystem path, as its list of components from the root;
`Path::ancestors` drops components from the right. -/
abbrev FsPath := List String

/-- The filesystem environment: which paths exist, and the process
current directory (`std::env::current_dir`). -/
structure FS where
  pathExists : FsPath → Bool
  current_dir : Except IoErr FsPath

/-- structs::GetGitInfoOptions (the request). -/
structure GetGitInfoOptions where
  start_folder : Option FsPath
  reference_name : String
  include_submodules : Bool
  include_untracked : Bool
  refresh_status : Bool
  include_ahead_behind : Bool
  include_workdir_stats : Bool
deriving DecidableEq, Repr

/-- GetGitInfoOptionsInternal: the five behavior flags after
configuration override. -/
structure GetGitInfoOptionsInternal where
  include_submodules : Bool
  include_untracked : Bool
  refresh_status : Bool
  include_ahead_behind : Bool
  include_workdir_stats : Bool
deriving DecidableEq, Repr

/-- GitHeadInfoInternal. -/
structure GitHeadInfoInternal where
  reference_name : Option String
  oid : Option Oid
  detached : Bool
deriving DecidableEq

/-- structs::GitHeadInfo (the display form). -/
structure GitHeadInfo where
  reference_short : Option String
  oid_short : Option String
  detached : Bool
deriving DecidableEq

/-- structs::GitBranchAheadBehind; the counts are usize. -/
structure GitBranchAheadBehind where
  ahead : Nat
  behind : Nat
deriving DecidableEq, Repr

/-- structs::GitFileStatus. -/
structure GitFileStatus where
  conflict : Bool
  untracked : Bool
  typechange : Bool
  unstaged : Bool
  staged : Bool
deriving DecidableEq, Repr

/-- structs::GitOutputOptions (the merged result). -/
structure GitOutputOptions where
  head_info : Option GitHeadInfo
  file_status : Option GitFileStatus
  branch_ahead_behind : Option GitBranchAheadBehind
deriving DecidableEq

/-- Models `Result::ok` alias the crate helper `MapLog::ok_or_log`: the logging is
a diagnostic side effect, the value outcome is `Option`. -/
def ok_or_log {e a : Type} (r : Except e a) : Option a :=
  match r with
  | .ok v => some v
  | .error _ => none

/-- Modelled from the spec: util::LastPart::last_part (src/util.rs is
not among the provided sources).  Per the spec, the final path segment
of a reference name: the substring after the last slash, the whole
string when it holds no slash. -/
def last_part_chars (l : List Char) : List Char :=
  (l.reverse.takeWhile (fun c => c ≠ '/')).reverse

/-- Modelled from the spec: string wrapper of `last_part_chars`. -/
def last_part (s : String) : String :=
  String.mk (last_part_chars s.data)

/-- Models `impl From<GitHeadInfoInternal> for structs::GitHeadInfo`:
`reference_short` is `last_part` of the reference name, `oid_short` the
first 8 characters of the oid's 40-character hexadecimal form. -/
def toGitHeadInfo (val : GitHeadInfoInternal) : GitHeadInfo :=
  { reference_short := val.reference_name.map (fun v => last_part v)
    oid_short := val.oid.map (fun v => String.mk (v.toStr.data.take 8))
    detached := val.detached }

/-- Models `std::path::Path::ancestors`: the path itself, then each parent in
turn, ending with the empty (root) path. -/
def ancestors_from (fuel : Nat) (p : FsPath) : List FsPath :=
  match fuel with
  | 0 => [p]
  | fuel + 1 =>
    match p with
    | [] => [[]]
    | _ :: _ => p :: ancestors_from fuel p.dropLast

/-- Each step of the walk drops the last component, so the component
count bounds the number of steps. -/
def ancestors (p : FsPath) : List FsPath :=
  ancestors_from p.length p

/-- git_subfolder: resolve the starting path (explicit start_folder or
the current directory), fail when it does not exist, and walk the
ancestors looking for one whose `.git` entry exists. -/
def git_subfolder (fs : FS) (options : GetGitInfoOptions) :
    Except Error (Option FsPath) :=
  match (match options.start_folder with
         | some p => Except.ok p
         | none => fs.current_dir) with
  | .error e => .error (.ioFail e)
  | .ok path =>
    if fs.pathExists path then
      .ok ((ancestors path).find? (fun sub_path => fs.pathExists (sub_path ++ [".git"])))
    else
      .error (.pathNotFound path)

/-- head_info.  `detached` comes from `head_detached().unwrap_or_default()`;
the named reference is looked up and the result branches on its kind. -/
def head_info (repo : Repo) (input_reference_name : String) :
    Except Error GitHeadInfoInternal :=
  let detached := (ok_or_log repo.head_detached).getD false
  match repo.find_reference input_reference_name with
  | .error e => .error (.git e)
  | .ok reference =>
    .ok (match reference.kind with
      | none =>
        { reference_name := none, oid := none, detached := detached }
      | some .symbolic =>
        let reference_name := reference.symbolic_target
        let reference_resolved := reference.resolved
        let oid := reference_resolved.bind (fun r => r.target)
        { reference_name := reference_name, oid := oid, detached := detached }
      | some .direct =>
        { reference_name := reference.name, oid := reference.target,
          detached := detached })

/-- The `git2::StatusOptions` value that file_status builds from the
resolved flags, field by field as the source sets it. -/
def build_status_options (options : GetGitInfoOptionsInternal) : StatusOptions :=
  { show_kind := match options.include_workdir_stats with
      | true => .indexAndWorkdir
      | false => .index
    no_refresh := options.refresh_status
    update_index := options.refresh_status
    exclude_submodules := !options.include_submodules
    include_ignored := false
    include_unreadable := false
    include_untracked := options.include_untracked }

/-- Modelled from the spec: libgit2 status semantics for the two refresh
flags (the library itself is outside the sources).  Status reads the
on-disk index afresh before scanning exactly when the NO_REFRESH option
is not set. -/
def refreshes_index (so : StatusOptions) : Bool :=
  !so.no_refresh

/-- Modelled from the spec: libgit2 status semantics, continued.  The
refreshed stat data is written back to the on-disk index file exactly
when the refresh happens and the UPDATE_INDEX option is set; with
UPDATE_INDEX unset the scan never mutates the index file. -/
def persists_index_refresh (so : StatusOptions) : Bool :=
  refreshes_index so && so.update_index

/-- The named status flags in their git2 declaration order; iterating a
`git2::Status` value visits the named flags it contains in this order. -/
def status_flags_list : List StatusFlag :=
  [.current, .index_new, .index_modified, .index_deleted, .index_renamed,
   .index_typechange, .wt_new, .wt_modified, .wt_deleted, .wt_typechange,
   .wt_renamed, .wt_unreadable, .ignored, .conflicted]

/-- The five mutable booleans of file_status's folding loop. -/
structure FileStatusAcc where
  conflict : Bool
  staged : Bool
  unstaged : Bool
  untracked : Bool
  typechange : Bool
deriving DecidableEq, Repr

/-- One arm of the `match status` inside file_status's loop: the flag at
hand sets its aggregate boolean (IGNORED and the catch-all arm do
nothing; WT_UNREADABLE falls to the catch-all). -/
def status_match (acc : FileStatusAcc) (f : StatusFlag) : FileStatusAcc :=
  match f with
  | .current => { acc with conflict := true }
  | .index_new => { acc with staged := true }
  | .index_modified => { acc with staged := true }
  | .index_deleted => { acc with staged := true }
  | .index_renamed => { acc with staged := true }
  | .index_typechange => { acc with staged := true }
  | .wt_new => { acc with untracked := true }
  | .wt_modified => { acc with unstaged := true }
  | .wt_deleted => { acc with unstaged := true }
  | .wt_typechange => { acc with typechange := true }
  | .wt_renamed => { acc with unstaged := true }
  | .ignored => acc
  | .wt_unreadable => acc
  | .conflicted => { acc with conflict := true }

/-- Models `statuses.iter().map(|s| s.status()).reduce(|a, b| a.union(b))
.unwrap_or(Status::empty())`. -/
def reduce_union (l : List Status) : Status :=
  match l with
  | [] => Status.empty
  | s :: rest => rest.foldl Status.union s

/-- The `for status in statuses_all` loop: fold the match over the named
flags contained in the union, starting from all-false booleans. -/
def file_status_fold (statuses_all : Status) : FileStatusAcc :=
  (status_flags_list.filter (fun f => statuses_all f)).foldl status_match
    { conflict := false, staged := false, unstaged := false,
      untracked := false, typechange := false }

/-- file_status: build the options, query statuses, union the per-path
bit-sets and fold them into the five aggregate flags. -/
def file_status (repo : Repo) (options : GetGitInfoOptionsInternal) :
    Except Error GitFileStatus :=
  let status_options := build_status_options options
  match repo.statuses status_options with
  | .error e => .error (.git e)
  | .ok statuses =>
    let statuses_all := reduce_union statuses
    let acc := file_status_fold statuses_all
    .ok { conflict := acc.conflict, untracked := acc.untracked,
          typechange := acc.typechange, unstaged := acc.unstaged,
          staged := acc.staged }

/-- graph_ahead_behind: refuse when the head's reference name or oid is
absent, then resolve the upstream tracking branch and count divergence. -/
def graph_ahead_behind (repo : Repo) (head : Option GitHeadInfoInternal) :
    Except Error GitBranchAheadBehind :=
  let reference : Option String := head.bind (fun h => h.reference_name)
  let head_oid : Option Oid := head.bind (fun h => h.oid)
  match reference, head_oid with
  | some ref, some hoid =>
    (match repo.branch_upstream_name ref with
     | .error e => .error (.git e)
     | .ok tracking_branch =>
       match tracking_branch with
       | none => .error .trackingBranchNonUtf8
       | some tb =>
         match repo.find_reference tb with
         | .error e => .error (.git e)
         | .ok tracking_reference =>
           match tracking_reference.target with
           | none => .error .trackingBranchNoOid
           | some tracking_oid =>
             match repo.graph_ahead_behind hoid tracking_oid with
             | .error e => .error (.git e)
             | .ok ab => .ok { ahead := ab.1, behind := ab.2 })
  | _, _ => .error .trackingBranchMissing

/-- The application namespace of the configuration keys
(`env!("CARGO_BIN_NAME")`; the crate manifest is outside the provided
sources, the repository is named git-status). -/
def app_name : String := "git-status"

/-- The key `format!("{}.{}", env!("CARGO_BIN_NAME"), name)` passed to
`Config::get_bool`. -/
def config_key (name : String) : String :=
  app_name ++ "." ++ name

/-- config_bool_var: `config.get_bool(key).unwrap_or(default_value)`. -/
def config_bool_var (config : Config) (name : String) (default_value : Bool) : Bool :=
  match config.get_bool (config_key name) with
  | .ok v => v
  | .error _ => default_value

/-- configuration_overrided: open the repository, snapshot its config,
and override each of the five flags from its namespaced key. -/
def configuration_overrided (w : Git2World) (git_info_options : GetGitInfoOptions) :
    Except Error GetGitInfoOptionsInternal :=
  match w.open0 with
  | .error e => .error (.git e)
  | .ok repo =>
    match repo.config with
    | .error e => .error (.git e)
    | .ok config =>
      .ok { include_submodules :=
              config_bool_var config "include-submodules" git_info_options.include_submodules
            include_untracked :=
              config_bool_var config "include-untracked" git_info_options.include_untracked
            refresh_status :=
              config_bool_var config "refresh-status" git_info_options.refresh_status
            include_ahead_behind :=
              config_bool_var config "include-ahead-behind" git_info_options.include_ahead_behind
            include_workdir_stats :=
              config_bool_var config "include-workdir-stats" git_info_options.include_workdir_stats }

/-- The body of unit A (the first spawned closure of process_repo): open
a handle, resolve the head, then either compute ahead/behind (enabled)
or substitute the zeroed value (disabled).  Returns the pair of result
slots (head_info_result, branch_ahead_behind_result) the closure writes. -/
def unit_a (openA : Option Repo) (options : GetGitInfoOptionsInternal)
    (input_options : GetGitInfoOptions) :
    Option GitHeadInfo × Option GitBranchAheadBehind :=
  match openA with
  | none => (none, none)
  | some repo =>
    let head_info_internal := ok_or_log (head_info repo input_options.reference_name)
    let ahead_behind :=
      match options.include_ahead_behind with
      | true => ok_or_log (graph_ahead_behind repo head_info_internal)
      | false => some { ahead := 0, behind := 0 }
    (head_info_internal.map toGitHeadInfo, ahead_behind)

/-- The body of unit B (the second spawned closure): open a handle and
scan the file status.  Returns the file_status_result slot it writes. -/
def unit_b (openB : Option Repo) (options : GetGitInfoOptionsInternal) :
    Option GitFileStatus :=
  match openB with
  | none => none
  | some repo => ok_or_log (file_status repo options)

/-- process_repo: resolve configuration, run the two units (the thread
scope joins both before the merge), and merge the three result slots. -/
def process_repo (w : Git2World) (input_options : GetGitInfoOptions) :
    Except Error GitOutputOptions :=
  match configuration_overrided w input_options with
  | .error e => .error e
  | .ok options =>
    let a := unit_a w.openA options input_options
    let file_status_result := unit_b w.openB options
    .ok { head_info := a.1, file_status := file_status_result,
          branch_ahead_behind := a.2 }

/-- process_current_dir: locate the repository root (converting a missing
root to an error) and process it. -/
def process_current_dir (fs : FS) (w : Git2World) (options : GetGitInfoOptions) :
    Except Error GitOutputOptions :=
  match git_subfolder fs options with
  | .error e => .error e
  | .ok none => .error .notFoundGitFolder
  | .ok (some _git_dir_buf) => process_repo w options

/-! ### Helper lemmas on the status fold -/

/-- Flags whose match arm sets `conflict`. -/
def sets_conflict : StatusFlag → Bool
  | .current => true
  | .conflicted => true
  | _ => false

/-- Flags whose match arm sets `staged`. -/
def sets_staged : StatusFlag → Bool
  | .index_new => true
  | .index_modified => true
  | .index_deleted => true
  | .index_renamed => true
  | .index_typechange => true
  | _ => false

/-- Flags whose match arm sets `unstaged`. -/
def sets_unstaged : StatusFlag → Bool
  | .wt_modified => true
  | .wt_deleted => true
  | .wt_renamed => true
  | _ => false

/-- Flags whose match arm sets `untracked`. -/
def sets_untracked : StatusFlag → Bool
  | .wt_new => true
  | _ => false

/-- Flags whose match arm sets `typechange`. -/
def sets_typechange : StatusFlag → Bool
  | .wt_typechange => true
  | _ => false

theorem status_match_conflict (acc : FileStatusAcc) (f : StatusFlag) :
    (status_match acc f).conflict = (acc.conflict || sets_conflict f) := by
  cases f <;> simp [status_match, sets_conflict]

theorem status_match_staged (acc : FileStatusAcc) (f : StatusFlag) :
    (status_match acc f).staged = (acc.staged || sets_staged f) := by
  cases f <;> simp [status_match, sets_staged]

theorem status_match_unstaged (acc : FileStatusAcc) (f : StatusFlag) :
    (status_match acc f).unstaged = (acc.unstaged || sets_unstaged f) := by
  cases f <;> simp [status_match, sets_unstaged]

theorem status_match_untracked (acc : FileStatusAcc) (f : StatusFlag) :
    (status_match acc f).untracked = (acc.untracked || sets_untracked f) := by
  cases f <;> simp [status_match, sets_untracked]

theorem status_match_typechange (acc : FileStatusAcc) (f : StatusFlag) :
    (status_match acc f).typechange = (acc.typechange || sets_typechange f) := by
  cases f <;> simp [status_match, sets_typechange]

theorem foldl_status_match_conflict (l : List StatusFlag) (acc : FileStatusAcc) :
    (l.foldl status_match acc).conflict = (acc.conflict || l.any sets_conflict) := by
  induction l generalizing acc with
  | nil => simp
  | cons f rest ih =>
    simp [List.foldl_cons, ih, status_match_conflict, Bool.or_assoc]

theorem foldl_status_match_staged (l : List StatusFlag) (acc : FileStatusAcc) :
    (l.foldl status_match acc).staged = (acc.staged || l.any sets_staged) := by
  induction l generalizing acc with
  | nil => simp
  | cons f rest ih =>
    simp [List.foldl_cons, ih, status_match_staged, Bool.or_assoc]

theorem foldl_status_match_unstaged (l : List StatusFlag) (acc : FileStatusAcc) :
    (l.foldl status_match acc).unstaged = (acc.unstaged || l.any sets_unstaged) := by
  induction l generalizing acc with
  | nil => simp
  | cons f rest ih =>
    simp [List.foldl_cons, ih, status_match_unstaged, Bool.or_assoc]

theorem foldl_status_match_untracked (l : List StatusFlag) (acc : FileStatusAcc) :
    (l.foldl status_match acc).untracked = (acc.untracked || l.any sets_untracked) := by
  induction l generalizing acc with
  | nil => simp
  | cons f rest ih =>
    simp [List.foldl_cons, ih, status_match_untracked, Bool.or_assoc]

theorem foldl_status_match_typechange (l : List StatusFlag) (acc : FileStatusAcc) :
    (l.foldl status_match acc).typechange = (acc.typechange || l.any sets_typechange) := by
  induction l generalizing acc with
  | nil => simp
  | cons f rest ih =>
    simp [List.foldl_cons, ih, status_match_typechange, Bool.or_assoc]

theorem any_filter {α : Type} (p q : α → Bool) (l : List α) :
    (l.filter p).any q = l.any (fun x => p x && q x) := by
  induction l with
  | nil => rfl
  | cons x xs ih =>
    cases h : p x <;> simp [List.filter_cons, h, ih]

theorem foldl_union_apply (rest : List Status) (a : Status) (f : StatusFlag) :
    (rest.foldl Status.union a) f = (a f || rest.any (fun s => s f)) := by
  induction rest generalizing a with
  | nil => simp
  | cons s ss ih =>
    simp [List.foldl_cons, ih, Status.union, Bool.or_assoc]

theorem reduce_union_apply (l : List Status) (f : StatusFlag) :
    reduce_union l f = l.any (fun s => s f) := by
  cases l with
  | nil => rfl
  | cons s rest => simp [reduce_union, foldl_union_apply]

theorem file_status_fold_conflict (u : Status) :
    (file_status_fold u).conflict = (u .current || u .conflicted) := by
  simp [file_status_fold, foldl_status_match_conflict, any_filter,
    status_flags_list, sets_conflict]

theorem file_status_fold_staged (u : Status) :
    (file_status_fold u).staged =
      (u .index_new || u .index_modified || u .index_deleted ||
       u .index_renamed || u .index_typechange) := by
  simp [file_status_fold, foldl_status_match_staged, any_filter,
    status_flags_list, sets_staged, Bool.or_assoc]

theorem file_status_fold_unstaged (u : Status) :
    (file_status_fold u).unstaged =
      (u .wt_modified || u .wt_deleted || u .wt_renamed) := by
  simp [file_status_fold, foldl_status_match_unstaged, any_filter,
    status_flags_list, sets_unstaged, Bool.or_assoc]

theorem file_status_fold_untracked (u : Status) :
    (file_status_fold u).untracked = u .wt_new := by
  simp [file_status_fold, foldl_status_match_untracked, any_filter,
    status_flags_list, sets_untracked]

theorem file_status_fold_typechange (u : Status) :
    (file_status_fold u).typechange = u .wt_typechange := by
  simp [file_status_fold, foldl_status_match_typechange, any_filter,
    status_flags_list, sets_typechange]

/-! ### Concrete objects used by witnesses -/

/-- An arbitrary git2 error value. -/
def gitErr : GitError := { code := 1 }

/-- A configuration snapshot in which every key is missing. -/
def configEmpty : Config := { get_bool := fun _ => .error gitErr }

/-- A concrete 40-character object id. -/
def oid40 : Oid := ⟨"0123456789abcdef0123456789abcdef01234567", rfl⟩

/-- A second concrete object id. -/
def oid40b : Oid := ⟨"fedcba9876543210fedcba9876543210fedcba98", rfl⟩

/-- A repository handle on which every library call fails. -/
def repoBase : Repo :=
  { head_detached := .error gitErr
    find_reference := fun _ => .error gitErr
    branch_upstream_name := fun _ => .error gitErr
    graph_ahead_behind := fun _ _ => .error gitErr
    config := .ok configEmpty
    statuses := fun _ => .error gitErr }

/-- The default request (`GetGitInfoOptions::default` in the sources is
outside src/, but only concrete values matter for witnesses). -/
def optsDefault : GetGitInfoOptions :=
  { start_folder := none
    reference_name := "HEAD"
    include_submodules := false
    include_untracked := true
    refresh_status := true
    include_ahead_behind := true
    include_workdir_stats := true }

/-- Concrete resolved flags for witnesses. -/
def optsIntW : GetGitInfoOptionsInternal :=
  { include_submodules := false
    include_untracked := true
    refresh_status := true
    include_ahead_behind := true
    include_workdir_stats := true }

/-- A status bit-set holding exactly one flag. -/
def singleFlag (f : StatusFlag) : Status := fun g => decide (g = f)

/-- Per-path statuses for the C3 witness: one staged-new path, one
untracked path. -/
def statusesW : List Status := [singleFlag .index_new, singleFlag .wt_new]

/-- A repository whose status query returns `statusesW`. -/
def repoStatusesW : Repo :=
  { repoBase with statuses := fun _ => .ok statusesW }

/-! ### C3 -/

theorem exists_mem_or {α : Type} (l : List α) (p q : α → Prop) :
    ((∃ x ∈ l, p x) ∨ (∃ x ∈ l, q x)) ↔ ∃ x ∈ l, (p x ∨ q x) := by
  constructor
  · rintro (⟨x, hm, h⟩ | ⟨x, hm, h⟩)
    · exact ⟨x, hm, Or.inl h⟩
    · exact ⟨x, hm, Or.inr h⟩
  · rintro ⟨x, hm, h | h⟩
    · exact Or.inl ⟨x, hm, h⟩
    · exact Or.inr ⟨x, hm, h⟩

/-- C3: over any scanned per-path status bit-sets, the five aggregate
flags computed by unioning the bit-sets satisfy: staged iff some path
has an index-side new/modified/deleted/renamed/typechange flag; unstaged
iff some path has a working-tree modified/deleted/renamed flag;
untracked iff some path has the working-tree-new flag; typechange iff
some path has the working-tree-typechange flag, and that flag alone does
not set unstaged; conflict iff some path has the conflicted or the
current flag; and no flag is mutually exclusive with another (an input
realizing all five at once exists). -/
theorem claim_C3 (repo : Repo) (options : GetGitInfoOptionsInternal)
    (statuses : List Status) (r : GitFileStatus)
    (hs : repo.statuses (build_status_options options) = .ok statuses)
    (hr : file_status repo options = .ok r) :
    ((r.staged = true) ↔ ∃ s ∈ statuses,
       (s .index_new || s .index_modified || s .index_deleted ||
        s .index_renamed || s .index_typechange) = true) ∧
    ((r.unstaged = true) ↔ ∃ s ∈ statuses,
       (s .wt_modified || s .wt_deleted || s .wt_renamed) = true) ∧
    ((r.untracked = true) ↔ ∃ s ∈ statuses, s .wt_new = true) ∧
    ((r.typechange = true) ↔ ∃ s ∈ statuses, s .wt_typechange = true) ∧
    ((r.conflict = true) ↔ ∃ s ∈ statuses,
       (s .conflicted || s .current) = true) ∧
    file_status_fold (singleFlag .wt_typechange) =
      { conflict := false, staged := false, unstaged := false,
        untracked := false, typechange := true } ∧
    file_status_fold (fun _ => true) =
      { conflict := true, staged := true, unstaged := true,
        untracked := true, typechange := true } := by
  have hr' : r = { conflict := (file_status_fold (reduce_union statuses)).conflict,
                   untracked := (file_status_fold (reduce_union statuses)).untracked,
                   typechange := (file_status_fold (reduce_union statuses)).typechange,
                   unstaged := (file_status_fold (reduce_union statuses)).unstaged,
                   staged := (file_status_fold (reduce_union statuses)).staged } := by
    simp only [file_status, hs, Except.ok.injEq] at hr
    exact hr.symm
  subst hr'
  refine ⟨?_, ?_, ?_, ?_, ?_, by rfl, by rfl⟩
  · simp only [file_status_fold_staged, reduce_union_apply, Bool.or_eq_true,
      List.any_eq_true]
    rw [exists_mem_or, exists_mem_or, exists_mem_or, exists_mem_or]
  · simp only [file_status_fold_unstaged, reduce_union_apply, Bool.or_eq_true,
      List.any_eq_true]
    rw [exists_mem_or, exists_mem_or]
  · simp only [file_status_fold_untracked, reduce_union_apply, List.any_eq_true]
  · simp only [file_status_fold_typechange, reduce_union_apply, List.any_eq_true]
  · simp only [file_status_fold_conflict, reduce_union_apply, Bool.or_eq_true,
      List.any_eq_true]
    rw [exists_mem_or]
    constructor
    · rintro ⟨x, hm, h⟩
      exact ⟨x, hm, h.symm⟩
    · rintro ⟨x, hm, h⟩
      exact ⟨x, hm, h.symm⟩

/-- Witness for C3 at a concrete scan: one staged-new path and one
untracked path give staged and untracked, nothing else. -/
theorem claim_C3_witness :
    file_status repoStatusesW optsIntW =
      .ok { conflict := false, untracked := true, typechange := false,
            unstaged := false, staged := true } ∧
    ((true = true) ↔ ∃ s ∈ statusesW,
       (s .index_new || s .index_modified || s .index_deleted ||
        s .index_renamed || s .index_typechange) = true) := by
  refine ⟨by rfl, ?_⟩
  have h := claim_C3 repoStatusesW optsIntW statusesW
    { conflict := false, untracked := true, typechange := false,
      unstaged := false, staged := true } (by rfl) (by rfl)
  exact h.1

/-! ### C6 -/

/-- A symbolic HEAD pointing at a branch that cannot be followed (an
unborn branch): following fails, so `resolved` is `none`. -/
def refUnborn : Reference :=
  { kind := some .symbolic
    symbolic_target := some "refs/heads/main"
    name := some "HEAD"
    target := none
    resolved := none }

/-- A repository whose HEAD is the unborn symbolic reference. -/
def repoSymW : Repo :=
  { repoBase with
    head_detached := .ok false
    find_reference := fun nm =>
      if nm = "HEAD" then .ok refUnborn else .error gitErr }

/-- C6: head resolution branches on the reference kind.  A kindless
reference yields both fields absent with detached still computed from
head_detached; a symbolic reference records the symbolic target as
reference_name without following and takes oid from following the
chain, keeping reference_name with an absent oid when following failed;
a direct reference uses its own name and direct target. -/
theorem claim_C6 (repo : Repo) (nm : String) (r : Reference)
    (hfr : repo.find_reference nm = .ok r) :
    ∃ h, head_info repo nm = .ok h ∧
      h.detached = (ok_or_log repo.head_detached).getD false ∧
      (r.kind = none → h.reference_name = none ∧ h.oid = none) ∧
      (r.kind = some .symbolic →
        h.reference_name = r.symbolic_target ∧
        h.oid = r.resolved.bind (fun x => x.target) ∧
        (r.resolved = none →
          h.oid = none ∧ h.reference_name = r.symbolic_target)) ∧
      (r.kind = some .direct →
        h.reference_name = r.name ∧ h.oid = r.target) := by
  cases hk : r.kind with
  | none =>
    refine ⟨{ reference_name := none, oid := none,
              detached := (ok_or_log repo.head_detached).getD false },
      ?_, rfl, ?_, ?_, ?_⟩
    · simp [head_info, hfr, hk]
    · intro _; exact ⟨rfl, rfl⟩
    · intro hc; exact Option.noConfusion hc
    · intro hc; exact Option.noConfusion hc
  | some t =>
    cases t with
    | symbolic =>
      refine ⟨{ reference_name := r.symbolic_target,
                oid := r.resolved.bind (fun x => x.target),
                detached := (ok_or_log repo.head_detached).getD false },
        ?_, rfl, ?_, ?_, ?_⟩
      · simp [head_info, hfr, hk]
      · intro hc; exact Option.noConfusion hc
      · intro _
        exact ⟨rfl, rfl, fun hres => ⟨by simp [hres], rfl⟩⟩
      · intro hc; simp at hc
    | direct =>
      refine ⟨{ reference_name := r.name, oid := r.target,
                detached := (ok_or_log repo.head_detached).getD false },
        ?_, rfl, ?_, ?_, ?_⟩
      · simp [head_info, hfr, hk]
      · intro hc; exact Option.noConfusion hc
      · intro hc; simp at hc
      · intro _; exact ⟨rfl, rfl⟩

/-- Witness for C6 at the unborn symbolic HEAD: reference_name is kept,
oid is absent. -/
theorem claim_C6_witness :
    ∃ h, head_info repoSymW "HEAD" = .ok h ∧
      h.reference_name = some "refs/heads/main" ∧ h.oid = none := by
  obtain ⟨h, heq, _hdet, _hnone, hsym, _hdir⟩ :=
    claim_C6 repoSymW "HEAD" refUnborn (by rfl)
  obtain ⟨h1, _h2, h3⟩ := hsym (by rfl)
  exact ⟨h, heq, by rw [h1]; rfl, (h3 rfl).1⟩

/-! ### C7 -/

theorem config_bool_var_ok (c : Config) (n : String) (d v : Bool)
    (h : c.get_bool (config_key n) = .ok v) : config_bool_var c n d = v := by
  simp [config_bool_var, h]

theorem config_bool_var_err (c : Config) (n : String) (d : Bool) (e : GitError)
    (h : c.get_bool (config_key n) = .error e) : config_bool_var c n d = d := by
  simp [config_bool_var, h]

/-- C7: each of the five resolved flags equals the boolean stored under
its namespaced key when that key is present and well-formed, and the
request default otherwise; a missing or malformed key never makes the
resolution fail. -/
theorem claim_C7 (w : Git2World) (opts : GetGitInfoOptions)
    (repo : Repo) (c : Config)
    (h0 : w.open0 = .ok repo) (hc : repo.config = .ok c) :
    ∃ r, configuration_overrided w opts = .ok r ∧
      (∀ v, c.get_bool (config_key "include-submodules") = .ok v →
        r.include_submodules = v) ∧
      (∀ e, c.get_bool (config_key "include-submodules") = .error e →
        r.include_submodules = opts.include_submodules) ∧
      (∀ v, c.get_bool (config_key "include-untracked") = .ok v →
        r.include_untracked = v) ∧
      (∀ e, c.get_bool (config_key "include-untracked") = .error e →
        r.include_untracked = opts.include_untracked) ∧
      (∀ v, c.get_bool (config_key "refresh-status") = .ok v →
        r.refresh_status = v) ∧
      (∀ e, c.get_bool (config_key "refresh-status") = .error e →
        r.refresh_status = opts.refresh_status) ∧
      (∀ v, c.get_bool (config_key "include-ahead-behind") = .ok v →
        r.include_ahead_behind = v) ∧
      (∀ e, c.get_bool (config_key "include-ahead-behind") = .error e →
        r.include_ahead_behind = opts.include_ahead_behind) ∧
      (∀ v, c.get_bool (config_key "include-workdir-stats") = .ok v →
        r.include_workdir_stats = v) ∧
      (∀ e, c.get_bool (config_key "include-workdir-stats") = .error e →
        r.include_workdir_stats = opts.include_workdir_stats) := by
  refine ⟨{ include_submodules :=
              config_bool_var c "include-submodules" opts.include_submodules
            include_untracked :=
              config_bool_var c "include-untracked" opts.include_untracked
            refresh_status :=
              config_bool_var c "refresh-status" opts.refresh_status
            include_ahead_behind :=
              config_bool_var c "include-ahead-behind" opts.include_ahead_behind
            include_workdir_stats :=
              config_bool_var c "include-workdir-stats" opts.include_workdir_stats },
    ?_, ?_, ?_, ?_, ?_, ?_, ?_, ?_, ?_, ?_, ?_⟩
  · simp [configuration_overrided, h0, hc]
  · intro v hv; exact config_bool_var_ok c _ _ v hv
  · intro e he; exact config_bool_var_err c _ _ e he
  · intro v hv; exact config_bool_var_ok c _ _ v hv
  · intro e he; exact config_bool_var_err c _ _ e he
  · intro v hv; exact config_bool_var_ok c _ _ v hv
  · intro e he; exact config_bool_var_err c _ _ e he
  · intro v hv; exact config_bool_var_ok c _ _ v hv
  · intro e he; exact config_bool_var_err c _ _ e he
  · intro v hv; exact config_bool_var_ok c _ _ v hv
  · intro e he; exact config_bool_var_err c _ _ e he

/-- A configuration snapshot storing refresh-status and
include-untracked as false, all other keys missing. -/
def configW : Config :=
  { get_bool := fun key =>
      if key = "git-status.refresh-status" then .ok false
      else if key = "git-status.include-untracked" then .ok false
      else .error gitErr }

/-- A repository carrying `configW`. -/
def repoConfW : Repo := { repoBase with config := .ok configW }

/-- The world whose configuration open yields `repoConfW`. -/
def worldConfW : Git2World :=
  { open0 := .ok repoConfW, openA := none, openB := none }

/-- Witness for C7: with refresh-status stored false and
include-ahead-behind missing, the resolved flags are false and the
request default respectively. -/
theorem claim_C7_witness :
    ∃ r, configuration_overrided worldConfW optsDefault = .ok r ∧
      r.refresh_status = false ∧
      r.include_ahead_behind = optsDefault.include_ahead_behind := by
  obtain ⟨r, heq, _, _, _, _, hrs, _, _, habe, _, _⟩ :=
    claim_C7 worldConfW optsDefault repoConfW configW (by rfl) (by rfl)
  exact ⟨r, heq, hrs false (by rfl), habe gitErr (by rfl)⟩

/-! ### process_repo helper lemmas -/

theorem configuration_overrided_openA (w : Git2World) (a : Option Repo)
    (opts : GetGitInfoOptions) :
    configuration_overrided { w with openA := a } opts =
      configuration_overrided w opts := rfl

theorem configuration_overrided_openB (w : Git2World) (b : Option Repo)
    (opts : GetGitInfoOptions) :
    configuration_overrided { w with openB := b } opts =
      configuration_overrided w opts := rfl

/-- After a successful configuration resolution, process_repo always
returns the merge of the two units' slots. -/
theorem process_repo_ok (w : Git2World) (opts : GetGitInfoOptions)
    (ropts : GetGitInfoOptionsInternal)
    (hco : configuration_overrided w opts = .ok ropts) :
    process_repo w opts =
      .ok { head_info := (unit_a w.openA ropts opts).1
            file_status := unit_b w.openB ropts
            branch_ahead_behind := (unit_a w.openA ropts opts).2 } := by
  simp [process_repo, hco]

/-- Unit A with ahead/behind disabled: the zeroed substitution. -/
theorem unit_a_disabled (repo : Repo) (ropts : GetGitInfoOptionsInternal)
    (opts : GetGitInfoOptions) (hab : ropts.include_ahead_behind = false) :
    unit_a (some repo) ropts opts =
      ((ok_or_log (head_info repo opts.reference_name)).map toGitHeadInfo,
       some { ahead := 0, behind := 0 }) := by
  simp [unit_a, hab]

/-- head_info never consults the ahead/behind calculator field. -/
theorem head_info_graph_irrelevant (repo : Repo)
    (g : Oid → Oid → Except GitError (Nat × Nat)) (nm : String) :
    head_info { repo with graph_ahead_behind := g } nm = head_info repo nm := rfl

/-! ### C8 -/

/-- C8: when the resolved include_ahead_behind flag is false and unit
A's repository open succeeded, the output's ahead/behind field is the
zeroed value and the ahead/behind calculator is never invoked (the
output does not depend on it), whatever head resolution did. -/
theorem claim_C8 (w : Git2World) (opts : GetGitInfoOptions)
    (ropts : GetGitInfoOptionsInternal) (repo : Repo)
    (hco : configuration_overrided w opts = .ok ropts)
    (hab : ropts.include_ahead_behind = false)
    (hA : w.openA = some repo) :
    ∃ out, process_repo w opts = .ok out ∧
      out.branch_ahead_behind = some { ahead := 0, behind := 0 } ∧
      ∀ g g',
        process_repo { w with openA := some { repo with graph_ahead_behind := g } } opts =
        process_repo { w with openA := some { repo with graph_ahead_behind := g' } } opts := by
  refine ⟨_, process_repo_ok w opts ropts hco, ?_, ?_⟩
  · rw [hA, unit_a_disabled repo ropts opts hab]
  · intro g g'
    rw [process_repo_ok _ opts ropts (by rw [configuration_overrided_openA]; exact hco),
        process_repo_ok _ opts ropts (by rw [configuration_overrided_openA]; exact hco)]
    dsimp only
    rw [unit_a_disabled _ ropts opts hab, unit_a_disabled _ ropts opts hab]
    rfl

/-- A world for the C8 and C10 witnesses: configuration stores
refresh-status and include-untracked false, and the request disables
ahead/behind via its default instead (include_ahead_behind true is
stored nowhere, so the request value wins). -/
def optsNoAB : GetGitInfoOptions :=
  { optsDefault with include_ahead_behind := false }

/-- The internal options that `worldConfW`-style configuration produces
from `optsNoAB`. -/
def roptsNoAB : GetGitInfoOptionsInternal :=
  { include_submodules := false
    include_untracked := false
    refresh_status := false
    include_ahead_behind := false
    include_workdir_stats := true }

/-- World for the C8 witness: unit A opens the unborn-HEAD repository. -/
def worldC8 : Git2World :=
  { open0 := .ok repoConfW, openA := some repoSymW, openB := none }

/-- Witness for C8: with ahead/behind disabled the output carries the
zeroed pair even though head resolution found no oid. -/
theorem claim_C8_witness :
    configuration_overrided worldC8 optsNoAB = .ok roptsNoAB ∧
    ∃ out, process_repo worldC8 optsNoAB = .ok out ∧
      out.branch_ahead_behind = some { ahead := 0, behind := 0 } := by
  refine ⟨by rfl, ?_⟩
  obtain ⟨out, heq, hzero, _⟩ :=
    claim_C8 worldC8 optsNoAB roptsNoAB repoSymW (by rfl) (by rfl) (by rfl)
  exact ⟨out, heq, hzero⟩

/-! ### C10 -/

/-- C10: when unit A's repository open fails, both outputs the unit owns
are absent: head_info and branch_ahead_behind are None, and in
particular the zeroed ahead/behind substitution is not applied even
when include_ahead_behind is disabled; unit B's slot is untouched. -/
theorem claim_C10 (w : Git2World) (opts : GetGitInfoOptions)
    (ropts : GetGitInfoOptionsInternal)
    (hco : configuration_overrided w opts = .ok ropts)
    (hA : w.openA = none) :
    ∃ out, process_repo w opts = .ok out ∧
      out.head_info = none ∧
      out.branch_ahead_behind = none ∧
      out.branch_ahead_behind ≠ some { ahead := 0, behind := 0 } ∧
      out.file_status = unit_b w.openB ropts := by
  refine ⟨_, process_repo_ok w opts ropts hco, ?_, ?_, ?_, rfl⟩ <;>
    simp [unit_a, hA]

/-- World for the C10 witness: unit A's open fails while ahead/behind is
disabled; no zeroed substitution appears. -/
def worldC10 : Git2World :=
  { open0 := .ok repoConfW, openA := none, openB := none }

/-- Witness for C10. -/
theorem claim_C10_witness :
    roptsNoAB.include_ahead_behind = false ∧
    ∃ out, process_repo worldC10 optsNoAB = .ok out ∧
      out.head_info = none ∧ out.branch_ahead_behind = none := by
  refine ⟨by rfl, ?_⟩
  obtain ⟨out, heq, hh, hb, _, _⟩ :=
    claim_C10 worldC10 optsNoAB roptsNoAB (by rfl) (by rfl)
  exact ⟨out, heq, hh, hb⟩

/-! ### C4 -/

/-- C4: with configuration resolved, the collection always returns a
merged output structure; the head-side outputs do not depend on unit
B's open outcome and the file-status output does not depend on unit A's
open outcome; a failure in one unit (its open failing, or its
file-status scan failing) yields None for that unit's slot while the
sibling's slots are exactly what the sibling alone computes. -/
theorem claim_C4 (w : Git2World) (opts : GetGitInfoOptions)
    (ropts : GetGitInfoOptionsInternal)
    (hco : configuration_overrided w opts = .ok ropts) :
    (∃ out, process_repo w opts = .ok out) ∧
    (∀ b b',
      Except.map (fun o => (o.head_info, o.branch_ahead_behind))
        (process_repo { w with openB := b } opts) =
      Except.map (fun o => (o.head_info, o.branch_ahead_behind))
        (process_repo { w with openB := b' } opts)) ∧
    (∀ a a',
      Except.map (fun o => o.file_status)
        (process_repo { w with openA := a } opts) =
      Except.map (fun o => o.file_status)
        (process_repo { w with openA := a' } opts)) ∧
    (∀ repo e, w.openB = some repo → file_status repo ropts = .error e →
      ∃ out, process_repo w opts = .ok out ∧
        out.file_status = none ∧
        out.head_info = (unit_a w.openA ropts opts).1 ∧
        out.branch_ahead_behind = (unit_a w.openA ropts opts).2) ∧
    (w.openB = none → ∃ out, process_repo w opts = .ok out ∧
      out.file_status = none) ∧
    (w.openA = none → ∃ out, process_repo w opts = .ok out ∧
      out.head_info = none ∧ out.branch_ahead_behind = none ∧
      out.file_status = unit_b w.openB ropts) := by
  refine ⟨⟨_, process_repo_ok w opts ropts hco⟩, ?_, ?_, ?_, ?_, ?_⟩
  · intro b b'
    rw [process_repo_ok _ opts ropts (by rw [configuration_overrided_openB]; exact hco),
        process_repo_ok _ opts ropts (by rw [configuration_overrided_openB]; exact hco)]
    rfl
  · intro a a'
    rw [process_repo_ok _ opts ropts (by rw [configuration_overrided_openA]; exact hco),
        process_repo_ok _ opts ropts (by rw [configuration_overrided_openA]; exact hco)]
    rfl
  · intro repo e hB hf
    refine ⟨_, process_repo_ok w opts ropts hco, ?_, rfl, rfl⟩
    simp [unit_b, hB, hf, ok_or_log]
  · intro hB
    refine ⟨_, process_repo_ok w opts ropts hco, ?_⟩
    simp [unit_b, hB]
  · intro hA
    refine ⟨_, process_repo_ok w opts ropts hco, ?_, ?_, rfl⟩ <;>
      simp [unit_a, hA]

/-- World for the C4 witness: unit A succeeds on the unborn-HEAD
repository while unit B opens a repository whose status query fails. -/
def worldC4 : Git2World :=
  { open0 := .ok repoConfW, openA := some repoSymW, openB := some repoBase }

/-- Witness for C4: the failing file-status unit contributes None while
the head unit's result is still returned and the call succeeds. -/
theorem claim_C4_witness :
    ∃ out, process_repo worldC4 optsDefault = .ok out ∧
      out.file_status = none ∧
      out.head_info = some { reference_short := some "main", oid_short := none,
                             detached := false } := by
  have h := claim_C4 worldC4 optsDefault
    { include_submodules := false, include_untracked := false,
      refresh_status := false, include_ahead_behind := true,
      include_workdir_stats := true } (by rfl)
  obtain ⟨out, heq, hfs, hhead, _⟩ :=
    h.2.2.2.1 repoBase (.git gitErr) (by rfl) (by rfl)
  refine ⟨out, heq, hfs, ?_⟩
  rw [hhead]
  rfl

/-! ### C2 -/

/-- When the head's reference name or oid is absent, the ahead/behind
computation refuses before touching the repository. -/
theorem graph_ahead_behind_no_upstream (repo : Repo)
    (head : Option GitHeadInfoInternal)
    (h : head.bind (fun x => x.reference_name) = none ∨
         head.bind (fun x => x.oid) = none) :
    graph_ahead_behind repo head = .error .trackingBranchMissing := by
  cases head with
  | none => rfl
  | some hi =>
    cases hr : hi.reference_name with
    | none =>
      cases ho : hi.oid with
      | none => simp [graph_ahead_behind, hr, ho]
      | some o => simp [graph_ahead_behind, hr, ho]
    | some nm =>
      cases ho : hi.oid with
      | none => simp [graph_ahead_behind, hr, ho]
      | some o =>
        rcases h with h | h <;> simp [hr, ho] at h

/-- C2 counterexample: with ahead/behind enabled and an unborn head (no
oid), the ahead/behind computation fails as claimed, but the caller
stores an absent result, not the zeroed AheadBehind the claim
promises. -/
theorem claim_C2_counterexample :
    graph_ahead_behind repoSymW
      (ok_or_log (head_info repoSymW optsDefault.reference_name)) =
      .error .trackingBranchMissing ∧
    process_repo worldC4 optsDefault =
      .ok { head_info := some { reference_short := some "main",
                                oid_short := none, detached := false }
            file_status := none
            branch_ahead_behind := none } ∧
    (none : Option GitBranchAheadBehind) ≠
      some { ahead := 0, behind := 0 } := by
  exact ⟨by rfl, by rfl, by simp⟩

/-- C2 (amended): when reference_name or oid is absent, the ahead/behind
computation fails with the missing-tracking-branch error, and the caller
converts that failure into an absent (None) ahead/behind output — the
zeroed substitution is reserved for the include_ahead_behind=false
path — while still returning a merged output. -/
theorem claim_C2 (w : Git2World) (opts : GetGitInfoOptions)
    (ropts : GetGitInfoOptionsInternal) (repo : Repo)
    (hco : configuration_overrided w opts = .ok ropts)
    (htrue : ropts.include_ahead_behind = true)
    (hA : w.openA = some repo)
    (habs : (ok_or_log (head_info repo opts.reference_name)).bind
              (fun x => x.reference_name) = none ∨
            (ok_or_log (head_info repo opts.reference_name)).bind
              (fun x => x.oid) = none) :
    graph_ahead_behind repo (ok_or_log (head_info repo opts.reference_name)) =
      .error .trackingBranchMissing ∧
    ∃ out, process_repo w opts = .ok out ∧
      out.branch_ahead_behind = none := by
  refine ⟨graph_ahead_behind_no_upstream repo _ habs,
    _, process_repo_ok w opts ropts hco, ?_⟩
  rw [hA]
  have hg := graph_ahead_behind_no_upstream repo
    (ok_or_log (head_info repo opts.reference_name)) habs
  simp only [unit_a, htrue]
  rw [hg]
  rfl

/-- Witness for C2 (amended) at the unborn-HEAD world. -/
theorem claim_C2_witness :
    graph_ahead_behind repoSymW
      (ok_or_log (head_info repoSymW optsDefault.reference_name)) =
      .error .trackingBranchMissing ∧
    ∃ out, process_repo worldC4 optsDefault = .ok out ∧
      out.branch_ahead_behind = none := by
  exact claim_C2 worldC4 optsDefault
    { include_submodules := false, include_untracked := false,
      refresh_status := false, include_ahead_behind := true,
      include_workdir_stats := true } repoSymW (by rfl) (by rfl) (by rfl)
    (Or.inr (by rfl))

/-! ### C1 -/

/-- C1 (code evaluation): file_status passes refresh_status directly
into both the NO_REFRESH and the UPDATE_INDEX status options, so a true
refresh_status disables the pre-status index refresh while a false one
enables it (without persisting); this inverts the refresh behavior the
claim states for both flag values. -/
theorem claim_C1 :
    (∀ options : GetGitInfoOptionsInternal,
      (build_status_options options).no_refresh = options.refresh_status ∧
      (build_status_options options).update_index = options.refresh_status ∧
      refreshes_index (build_status_options options) = !options.refresh_status) ∧
    optsIntW.refresh_status = true ∧
    refreshes_index (build_status_options optsIntW) = false ∧
    roptsNoAB.refresh_status = false ∧
    refreshes_index (build_status_options roptsNoAB) = true ∧
    persists_index_refresh (build_status_options roptsNoAB) = false := by
  exact ⟨fun o => ⟨rfl, rfl, rfl⟩, rfl, rfl, rfl, rfl, rfl⟩

/-! ### C5 -/

/-- The ancestor walk starts at the path itself (most specific). -/
theorem ancestors_head (start : FsPath) :
    (ancestors start).head? = some start := by
  cases start <;> rfl

/-- C5: a nonexistent starting path fails with the path-not-found error;
an existing one is walked together with its ancestors, most specific
first, and the first ancestor whose .git entry exists is returned
whatever its depth; when no ancestor qualifies, location fails with the
repository-not-found error. -/
theorem claim_C5 (fs : FS) (w : Git2World) (opts : GetGitInfoOptions)
    (start : FsPath) (hstart : opts.start_folder = some start) :
    (ancestors start).head? = some start ∧
    (fs.pathExists start = false →
      git_subfolder fs opts = .error (.pathNotFound start) ∧
      process_current_dir fs w opts = .error (.pathNotFound start)) ∧
    (fs.pathExists start = true →
      (∀ p, git_subfolder fs opts = .ok (some p) →
        p ∈ ancestors start ∧
        fs.pathExists (p ++ [".git"]) = true ∧
        ∃ l₁ l₂, ancestors start = l₁ ++ p :: l₂ ∧
          ∀ q ∈ l₁, fs.pathExists (q ++ [".git"]) = false) ∧
      ((∃ q ∈ ancestors start, fs.pathExists (q ++ [".git"]) = true) →
        ∃ p, git_subfolder fs opts = .ok (some p)) ∧
      ((∀ q ∈ ancestors start, fs.pathExists (q ++ [".git"]) = false) →
        git_subfolder fs opts = .ok none ∧
        process_current_dir fs w opts = .error .notFoundGitFolder)) := by
  refine ⟨ancestors_head start, ?_, ?_⟩
  · intro hex
    constructor
    · simp [git_subfolder, hstart, hex]
    · simp [process_current_dir, git_subfolder, hstart, hex]
  · intro hex
    refine ⟨?_, ?_, ?_⟩
    · intro p hp
      simp only [git_subfolder, hstart, hex, if_true, Except.ok.injEq] at hp
      have hpe : fs.pathExists (p ++ [".git"]) = true := by
        have := List.find?_some hp
        simpa using this
      refine ⟨List.mem_of_find?_eq_some hp, hpe, ?_⟩
      obtain ⟨_hpb, l₁, l₂, heq, hall⟩ := List.find?_eq_some.mp hp
      refine ⟨l₁, l₂, heq, ?_⟩
      intro q hq
      have := hall q hq
      rwa [Bool.not_eq_true'] at this
    · rintro ⟨q, hq, hqx⟩
      have hsome : ((ancestors start).find?
          (fun sub_path => fs.pathExists (sub_path ++ [".git"]))).isSome = true :=
        List.find?_isSome.mpr ⟨q, hq, hqx⟩
      obtain ⟨p, hp⟩ := Option.isSome_iff_exists.mp hsome
      refine ⟨p, ?_⟩
      simp [git_subfolder, hstart, hex, hp]
    · intro hall
      have hnone : (ancestors start).find?
          (fun sub_path => fs.pathExists (sub_path ++ [".git"])) = none := by
        rw [List.find?_eq_none]
        intro q hq
        simp [hall q hq]
      constructor
      · simp [git_subfolder, hstart, hex, hnone]
      · simp [process_current_dir, git_subfolder, hstart, hex, hnone]

/-- A filesystem where nothing exists. -/
def fsNone : FS :=
  { pathExists := fun _ => false, current_dir := .error { code := 0 } }

/-- A filesystem with a repository marker two levels above the start. -/
def fsMarked : FS :=
  { pathExists := fun p =>
      decide (p = ["a", "b", "c"]) || decide (p = ["a", "b"]) ||
      decide (p = ["a"]) || decide (p = []) || decide (p = ["a", ".git"])
    current_dir := .error { code := 0 } }

/-- A filesystem holding only an isolated directory, no marker. -/
def fsBare : FS :=
  { pathExists := fun p => decide (p = ["z"]) || decide (p = [])
    current_dir := .error { code := 0 } }

/-- Request starting at the nonexistent path. -/
def optsStartNone : GetGitInfoOptions :=
  { optsDefault with start_folder := some ["home", "user"] }

/-- Request starting under the marked tree. -/
def optsStartMarked : GetGitInfoOptions :=
  { optsDefault with start_folder := some ["a", "b", "c"] }

/-- Request starting at the bare directory. -/
def optsStartBare : GetGitInfoOptions :=
  { optsDefault with start_folder := some ["z"] }

/-- Witness for C5: the three contract cases at concrete filesystems:
missing start path, marker found two levels up, no marker anywhere. -/
theorem claim_C5_witness :
    git_subfolder fsNone optsStartNone = .error (.pathNotFound ["home", "user"]) ∧
    (["a"] ∈ ancestors ["a", "b", "c"] ∧
      fsMarked.pathExists (["a"] ++ [".git"]) = true) ∧
    process_current_dir fsBare worldC10 optsStartBare = .error .notFoundGitFolder := by
  refine ⟨?_, ?_, ?_⟩
  · exact ((claim_C5 fsNone worldC10 optsStartNone ["home", "user"] rfl).2.1
      (by rfl)).1
  · have h := ((claim_C5 fsMarked worldC10 optsStartMarked ["a", "b", "c"] rfl).2.2
      (by rfl)).1 ["a"] (by rfl)
    exact ⟨h.1, h.2.1⟩
  · exact (((claim_C5 fsBare worldC10 optsStartBare ["z"] rfl).2.2
      (by rfl)).2.2 (by decide)).2

/-! ### C9 -/

theorem last_part_chars_no_slash (l : List Char) : '/' ∉ last_part_chars l := by
  intro hmem
  have hp := List.mem_takeWhile_imp (List.mem_reverse.mp hmem)
  simp at hp

theorem last_part_chars_split (l : List Char) (h : '/' ∈ l) :
    ∃ pre, l = pre ++ '/' :: last_part_chars l := by
  have hne : l.reverse.dropWhile (fun c => decide (c ≠ '/')) ≠ [] := by
    intro hnil
    have hall := List.dropWhile_eq_nil_iff.mp hnil '/' (List.mem_reverse.mpr h)
    simp at hall
  have hhead := List.head_dropWhile_not (fun c => decide (c ≠ '/')) l.reverse hne
  have hslash : (l.reverse.dropWhile (fun c => decide (c ≠ '/'))).head hne = '/' := by
    simpa using hhead
  refine ⟨(l.reverse.dropWhile (fun c => decide (c ≠ '/'))).tail.reverse, ?_⟩
  have hsplit := List.takeWhile_append_dropWhile
    (fun c => decide (c ≠ '/')) l.reverse
  calc l = l.reverse.reverse := (List.reverse_reverse l).symm
    _ = (l.reverse.takeWhile (fun c => decide (c ≠ '/')) ++
          l.reverse.dropWhile (fun c => decide (c ≠ '/'))).reverse := by
          rw [hsplit]
    _ = (l.reverse.dropWhile (fun c => decide (c ≠ '/'))).reverse ++
          last_part_chars l := by
          rw [List.reverse_append]; rfl
    _ = ((l.reverse.dropWhile (fun c => decide (c ≠ '/'))).head hne ::
          (l.reverse.dropWhile (fun c => decide (c ≠ '/'))).tail).reverse ++
          last_part_chars l := by
          rw [List.head_cons_tail]
    _ = (l.reverse.dropWhile (fun c => decide (c ≠ '/'))).tail.reverse ++
          '/' :: last_part_chars l := by
          rw [hslash, List.reverse_cons, List.append_assoc]; rfl

theorem last_part_chars_of_no_slash (l : List Char) (h : '/' ∉ l) :
    last_part_chars l = l := by
  unfold last_part_chars
  rw [List.takeWhile_eq_self_iff.mpr ?_, List.reverse_reverse]
  intro x hx
  have hxl : x ∈ l := List.mem_reverse.mp hx
  simp
  intro heq
  exact h (heq ▸ hxl)

/-- C9: with a present reference name, reference_short is its final path
segment — the slash-free substring after the last slash, the whole name
when it holds none — and with a present oid, oid_short is exactly the
first 8 characters of the oid's 40-character hexadecimal form. -/
theorem claim_C9 (h : GitHeadInfoInternal) (n : String) (o : Oid)
    (hn : h.reference_name = some n) (ho : h.oid = some o) :
    (toGitHeadInfo h).reference_short = some (last_part n) ∧
    '/' ∉ (last_part n).data ∧
    ('/' ∈ n.data → ∃ pre, n.data = pre ++ '/' :: (last_part n).data) ∧
    ('/' ∉ n.data → last_part n = n) ∧
    (toGitHeadInfo h).oid_short = some (String.mk (o.toStr.data.take 8)) ∧
    (String.mk (o.toStr.data.take 8)).length = 8 ∧
    o.toStr.data = o.toStr.data.take 8 ++ o.toStr.data.drop 8 := by
  refine ⟨?_, ?_, ?_, ?_, ?_, ?_, ?_⟩
  · simp [toGitHeadInfo, hn]
  · exact last_part_chars_no_slash n.data
  · intro hsl
    exact last_part_chars_split n.data hsl
  · intro hnsl
    show String.mk (last_part_chars n.data) = n
    rw [last_part_chars_of_no_slash n.data hnsl]
  · simp [toGitHeadInfo, ho]
  · show (o.toStr.data.take 8).length = 8
    rw [List.length_take]
    have h40 : o.toStr.data.length = 40 := o.property
    rw [h40]
    decide
  · exact (List.take_append_drop 8 o.toStr.data).symm

/-- Witness for C9 at a branch reference and a concrete oid. -/
theorem claim_C9_witness :
    (toGitHeadInfo { reference_name := some "refs/heads/main",
                     oid := some oid40,
                     detached := false }).reference_short =
      some (last_part "refs/heads/main") ∧
    last_part "refs/heads/main" = "main" ∧
    (toGitHeadInfo { reference_name := some "refs/heads/main",
                     oid := some oid40,
                     detached := false }).oid_short = some "01234567" := by
  have h := claim_C9
    { reference_name := some "refs/heads/main", oid := some oid40,
      detached := false } "refs/heads/main" oid40 rfl rfl
  refine ⟨h.1, by rfl, ?_⟩
  rw [h.2.2.2.2.1]
  rfl

end GitStatus
